import Mathlib

/- Verification of the csv2mt940 record-transformation engine
   (src/csv2mt940.py) against its natural-language specification.

   Python strings are modelled as Lean `String` values (lists of
   characters).  The engine is pure apart from three external inputs
   that the spec treats as collaborators: the decoded CSV rows, the
   configuration, and the conversion timestamp `datetime.now()`; all
   three are passed in explicitly.  Fatal `fail(...)` calls (which
   print and `sys.exit`) are modelled as `Except.error` values carrying
   the same context the message carries. -/

namespace Csv2Mt940

/-- ASCII whitespace as recognised by Python's `str.split()` /
`str.strip()`: space, tab, newline, carriage return, vertical tab
(11), form feed (12).  (Python additionally treats some uncommon
Unicode space characters as whitespace; the CSV data modelled here is
ASCII/latin-1 text, where the two notions agree.) -/
def isPySpace (c : Char) : Bool :=
  c = ' ' || c = '\t' || c = '\n' || c = '\r' || c.toNat = 11 || c.toNat = 12

/-- Python `str.strip()` on a character list: drop leading and trailing
whitespace. -/
def pyStripList (l : List Char) : List Char :=
  ((l.dropWhile isPySpace).reverse.dropWhile isPySpace).reverse

/-- Python `s.strip()`. -/
def pyStrip (s : String) : String := String.mk (pyStripList s.data)

/-- Word scanner behind Python `s.split()` (no separator argument):
`acc` is the current word being read (reversed), `done` the words found
so far (reversed).  Runs of whitespace separate words; empty words are
never produced. -/
def pyWordsGo (acc : List Char) (done : List (List Char)) :
    List Char → List (List Char)
  | [] => if acc = [] then done else acc.reverse :: done
  | c :: cs =>
    if isPySpace c then
      pyWordsGo [] (if acc = [] then done else acc.reverse :: done) cs
    else
      pyWordsGo (c :: acc) done cs

/-- Python `s.split()`: the maximal whitespace-free words of `l`. -/
def pyWords (l : List Char) : List (List Char) := (pyWordsGo [] [] l).reverse

/-- Python `sep.join(list)`. -/
def joinSep (sep : String) : List String → String
  | [] => ""
  | [a] => a
  | a :: b :: as => a ++ sep ++ joinSep sep (b :: as)

/-- Python `" ".join(text.split())` (src line 58): collapse internal
whitespace runs to single spaces and trim both ends. -/
def pyCollapse (s : String) : String :=
  joinSep " " ((pyWords s.data).map String.mk)

/-- The chunking comprehension `[clean[i:i+width] for i in
range(0, len(clean), width)]` (src line 59), with chunk size `w + 1`.
The fuel argument only bounds the recursion; one chunk consumes at
least one character, so fuel equal to the list length is never
exhausted.  (Python's `range` raises for step 0, so the source is only
defined for positive widths; `wrap_86` below passes `width - 1`.) -/
def chunksFuel (w : Nat) : Nat → List Char → List (List Char)
  | _, [] => []
  | 0, _ :: _ => []
  | fuel + 1, c :: cs => (c :: cs.take w) :: chunksFuel w fuel (cs.drop w)

/-- `wrap_86(text, width, max_lines)` (src lines 57-60): collapse
whitespace, cut into chunks of at most `width` characters, fall back to
`[""]` when the cleaned text is empty (Python's `or [""]`), and keep at
most `max_lines` chunks. -/
def wrap_86 (text : String) (width max_lines : Nat) : List String :=
  let clean := pyCollapse text
  let lines := (chunksFuel (width - 1) clean.data.length clean.data).map String.mk
  (if lines = [] then [""] else lines).take max_lines

/-- The fatal row-scoped failures of the engine (each `fail(...)` call
site), carrying the context printed by the source, plus the
`NameError`/`UnboundLocalError` that Python raises at src line 239 when
the loop-local `curr` was never assigned (no row was accepted) and
balances are not suppressed. -/
inductive RowError where
  | invalidDate (lineNumber : Nat) (value : String)
  | missingAmount (lineNumber : Nat) (row : String)
  | malformedRow (lineNumber : Nat) (cols needed : Nat) (row : String)
  | unboundCurrency
deriving DecidableEq

/-- Python `s[a:b]` for `0 ≤ a ≤ b`. -/
def pySlice (s : String) (a b : Nat) : String :=
  String.mk ((s.data.drop a).take (b - a))

/-- The nested `date_parts` helper (src lines 177-183).  It captures
the enclosing `lineNumber`; success requires at least 10 characters
with `.` at positions 2 and 5 (`d[2] == "."` is a one-character slice
comparison in Python), and returns `(d[8:10], d[3:5], d[0:2])`, i.e.
`(yy, mm, dd)`. -/
def date_parts (lineNumber : Nat) (d : String) :
    Except RowError (String × String × String) :=
  if 10 ≤ d.length ∧ pySlice d 2 3 = "." ∧ pySlice d 5 6 = "." then
    .ok (pySlice d 8 10, pySlice d 3 5, pySlice d 0 2)
  else
    .error (.invalidDate lineNumber d)

/-- Python `s.replace(".", ",")` (src line 196): a single-character
pattern, hence a character-wise map. -/
def pyReplaceDot (s : String) : String :=
  String.mk (s.data.map (fun c => if c = '.' then ',' else c))

/-- The amount/direction logic (src lines 189-196).  `amt` and
`amt_alt` are the two amount columns (column 10 and 11, already
stripped by the caller); `joined` is the delimiter-joined row text used
in the error message. -/
def resolveAmount (lineNumber : Nat) (joined amt amt_alt : String) :
    Except RowError (String × String) :=
  let val := if pyStrip amt ≠ "" then amt else amt_alt
  if pyStrip val = "" then
    .error (.missingAmount lineNumber joined)
  else
    let dc := if pyStrip amt = "" ∧ pyStrip amt_alt ≠ "" then "C" else "D"
    .ok (pyReplaceDot val, dc)

/-- Accumulator for Python `s.split(",")` (separator version: adjacent
separators produce empty fields). -/
def splitChGo (sep : Char) (acc : List Char) : List Char → List (List Char)
  | [] => [acc.reverse]
  | c :: cs =>
    if c = sep then acc.reverse :: splitChGo sep [] cs
    else splitChGo sep (c :: acc) cs

/-- Python `s.split(",")`. -/
def splitComma (s : String) : List String :=
  (splitChGo ',' [] s.data).map String.mk

/-- The StarMoney `:86:` block lines (src lines 209-214): the wrapped
`EREF+...` first segment (with ` PURP+...` appended when a purpose code
is configured), then `SVWZ+comment` wrapped into the remaining line
budget. -/
def starmoney86 (eref purp svwz : String) : List String :=
  let first_line := "EREF+" ++ eref ++ (if purp ≠ "" then " PURP+" ++ purp else "")
  let parts_86 := wrap_86 first_line 65 6
  parts_86 ++ wrap_86 (if svwz ≠ "" then "SVWZ+" ++ svwz else "SVWZ+") 65 (6 - parts_86.length)

/-- The plain-mode `:86:` block lines (src lines 217-220): the
non-empty lines of the wrapped comment, then one line with the
non-empty trimmed tags joined by `"; "`, when any exist.  (Python's
`comment or ""` equals `comment` for strings, and `tags.split(",") if
tags else []` guards the comma split on emptiness.) -/
def plain86 (comment tags : String) : List String :=
  let parts_86 := wrap_86 comment 65 6
  let tag_list := ((if tags = "" then [] else splitComma tags).map pyStrip).filter (fun t => t ≠ "")
  let tag_text := if tag_list = [] then "" else joinSep "; " tag_list
  parts_86.filter (fun l => l ≠ "") ++ (if tag_text = "" then [] else [tag_text])

/-- The configuration surface the engine consumes (parsed externally,
src lines 62-115), plus `now`, the conversion timestamp string produced
by `datetime.datetime.now().strftime(...)` at src line 199 (an external
clock input).  `limit = 0` means no limit, as in the source. -/
structure Config where
  delimiter : String
  limit : Nat
  profile : Option String
  ttype : String
  eref : String
  purp : String
  suppress_balances : Bool
  now : String
deriving DecidableEq

/-- `currency_fallback = "EUR"` (src line 146). -/
def currency_fallback : String := "EUR"

/-- The run-scoped mutable state of `main`'s loop (src lines 140-146).
`curr` models the loop-local Python variable of the same name: `none`
while it is still unbound (no row ever reached src line 173). -/
structure St where
  lineNumber : Nat
  tx_count : Nat
  bodies : List String
  header : String
  opening_date : String
  closing_date : String
  curr : Option String
deriving DecidableEq

/-- The state before the first row is read. -/
def initSt : St := ⟨0, 0, [], "", "", "", none⟩

/-- Effect of a `continue`d (skipped) row: only the line counter moves. -/
def skipSt (st : St) : St := { st with lineNumber := st.lineNumber + 1 }

/-- ASCII branch of Python `str.upper()` (only applied to the
`--ttype` option value, e.g. "NTRF"). -/
def asciiUpperChar (c : Char) : Char :=
  if 97 ≤ c.toNat ∧ c.toNat ≤ 122 then Char.ofNat (c.toNat - 32) else c

/-- Python `s.upper()` restricted to ASCII letters. -/
def pyUpper (s : String) : String := String.mk (s.data.map asciiUpperChar)

/-- Python `s * n` (string repetition). -/
def strRep (s : String) (n : Nat) : String := joinSep "" (List.replicate n s)

/-- Python `big.startswith(pat)`, on character lists (`pat` first). -/
def listStarts : List Char → List Char → Bool
  | [], _ => true
  | _ :: _, [] => false
  | a :: as, b :: bs => a = b && listStarts as bs

/-- The statement header built from the first accepted row
(src lines 199-202). -/
def mkHeader (now account : String) : String :=
  ":20:DateOfConversion" ++ now ++ "\r\n" ++ ":25:" ++ account ++ "\r\n"
    ++ ":28C:00001/001" ++ "\r\n"

/-- One transaction body: the `:61:` line (src lines 205-206) followed
by the `:86:` block (src lines 208-221).  The parsed booking date is
`(yy_b, mm_b, dd_b)`, the parsed value date `(yy_v, mm_v, dd_v)`;
`val`/`dc` come from the amount logic. -/
def mkBody (cfg : Config) (row : List String)
    (yy_b mm_b dd_b yy_v mm_v dd_v val dc : String) : String :=
  ":61:" ++ yy_v ++ mm_v ++ dd_v ++ mm_b ++ dd_b ++ dc ++ val
      ++ (if cfg.profile = some "starmoney" then pyUpper (pyStrip cfg.ttype) else "FCHG")
      ++ "NONREF//NONREF" ++ "\r\n"
    ++ (if cfg.profile = some "starmoney" then
          ":86:" ++ joinSep "\r\n"
              (starmoney86 (if cfg.eref = "" then "NONREF" else cfg.eref)
                (pyStrip cfg.purp) (pyStrip (row.getD 4 ""))) ++ "\r\n"
        else
          ":86:" ++ joinSep "\r\n"
              (plain86 (pyStrip (row.getD 4 "")) (pyStrip (row.getD 5 ""))) ++ "\r\n")

/-- Effect of an accepted row on the loop state (src lines 198-225):
append the body, bump the count, set the header and `closing_date` on
the first accepted row only, overwrite `opening_date`, and (re)bind
`curr`. -/
def acceptSt (cfg : Config) (st : St) (row : List String)
    (yy_b mm_b dd_b yy_v mm_v dd_v val dc : String) : St where
  lineNumber := st.lineNumber + 1
  tx_count := st.tx_count + 1
  bodies := st.bodies ++ [mkBody cfg row yy_b mm_b dd_b yy_v mm_v dd_v val dc]
  header := if st.header = "" then mkHeader cfg.now (pyStrip (row.getD 1 "")) else st.header
  opening_date := dd_v ++ mm_v ++ yy_v
  closing_date := if st.header = "" then dd_v ++ mm_v ++ yy_v else st.closing_date
  curr := some (if pyStrip (row.getD 7 "") = "" then currency_fallback
                else pyStrip (row.getD 7 ""))

/-- One iteration of the row loop (src lines 151-232, sans the debug
table).  In source order: bump the line counter; skip the first two
rows, fully blank rows, and footer rows (joined text starting with four
delimiters + "Total"); fail on short rows; parse the booking then the
value date; resolve the amount; accept. -/
def step (cfg : Config) (st : St) (row : List String) : Except RowError St :=
  if st.lineNumber + 1 < 3 then .ok (skipSt st)
  else if row.all (fun c => pyStrip c == "") then .ok (skipSt st)
  else if listStarts (strRep cfg.delimiter 4 ++ "Total").data
      (pyStrip (joinSep cfg.delimiter row)).data then .ok (skipSt st)
  else if row.length ≤ 12 then
    .error (.malformedRow (st.lineNumber + 1) row.length 13
      (pyStrip (joinSep cfg.delimiter row)))
  else
    match date_parts (st.lineNumber + 1) (pyStrip (row.getD 12 "")) with
    | .error e => .error e
    | .ok (yy_b, mm_b, dd_b) =>
      match date_parts (st.lineNumber + 1) (pyStrip (row.getD 3 "")) with
      | .error e => .error e
      | .ok (yy_v, mm_v, dd_v) =>
        match resolveAmount (st.lineNumber + 1) (pyStrip (joinSep cfg.delimiter row))
            (pyStrip (row.getD 10 "")) (pyStrip (row.getD 11 "")) with
        | .error e => .error e
        | .ok (val, dc) =>
          .ok (acceptSt cfg st row yy_b mm_b dd_b yy_v mm_v dd_v val dc)

/-- The row loop (src lines 151-232).  Any `fail` aborts the whole run.
Python checks `args.limit and tx_count >= args.limit` after a processed
row; with a `Nat` limit and a count that grows by at most one per row
from 0, checking the same condition after every row is equivalent. -/
def loop (cfg : Config) (st : St) : List (List String) → Except RowError St
  | [] => .ok st
  | row :: rest =>
    match step cfg st row with
    | .error e => .error e
    | .ok st' =>
      if cfg.limit ≠ 0 ∧ cfg.limit ≤ st'.tx_count then .ok st'
      else loop cfg st' rest

/-- Concatenation of a list of output writes. -/
def concatAll : List String → String
  | [] => ""
  | a :: as => a ++ concatAll as

/-- Serialization (src lines 236-244): byte-order mark, header,
optional `:60F:` opening balance, the bodies indexed `tx_count-1` down
to `0` (`for i in range(tx_count, 0, -1)`), optional `:62F:` closing
balance, final blank line.  Reading `curr` while it is unbound is
Python's `NameError` (src line 239 / 243). -/
def serialize (cfg : Config) (st : St) : Except RowError String :=
  let bodyPart := concatAll ((List.range st.tx_count).reverse.map
    (fun i => st.bodies.getD i ""))
  if cfg.suppress_balances then
    .ok ("\uFEFF" ++ st.header ++ bodyPart ++ "\r\n")
  else
    match st.curr with
    | none => .error .unboundCurrency
    | some c =>
      .ok ("\uFEFF" ++ st.header
        ++ (":60F:C" ++ st.opening_date ++ c ++ "0,0" ++ "\r\n")
        ++ bodyPart
        ++ (":62F:C" ++ st.closing_date ++ c ++ "0,0" ++ "\r\n")
        ++ "\r\n")

/-- The whole engine run: consume every row, then serialize once
(src lines 150-245). -/
def runConversion (cfg : Config) (rows : List (List String)) :
    Except RowError String :=
  match loop cfg initSt rows with
  | .error e => .error e
  | .ok st => serialize cfg st

/-- The default configuration (src lines 69-83), with an arbitrary
concrete conversion timestamp. -/
def cfgDefault : Config where
  delimiter := ";"
  limit := 0
  profile := none
  ttype := "NTRF"
  eref := "NONREF"
  purp := ""
  suppress_balances := false
  now := "20240101120000"

/-- Ghost observer for stating specification claims: the rows of the
input that the loop accepts (those on which `step` increments
`tx_count`), in acceptance order, honouring the same early stops as
`loop`. -/
def acceptedRows (cfg : Config) (st : St) : List (List String) → List (List String)
  | [] => []
  | row :: rest =>
    match step cfg st row with
    | .error _ => []
    | .ok st' =>
      (if st'.tx_count = st.tx_count + 1 then [row] else [])
        ++ (if cfg.limit ≠ 0 ∧ cfg.limit ≤ st'.tx_count then []
            else acceptedRows cfg st' rest)

/-- Ghost observer: the `ddmmyy` balance-date rendering of a row's
value date (column 3), as the source computes it at src lines 203/225. -/
def valutaDDMMYY (row : List String) : String :=
  match date_parts 0 (pyStrip (row.getD 3 "")) with
  | .ok (yy, mm, dd) => dd ++ mm ++ yy
  | .error _ => ""

/-- Modelled from the spec's words (§4.3, plain mode): the non-empty
lines of `wrap(comment)`, plus one trailing line of the non-empty
trimmed tags joined with `"; "` when at least one exists.  Stated
separately from `plain86` (which follows the source) so the two can be
compared. -/
def plainNarrativeSpec (comment tags : String) : List String :=
  let nonEmptyTags := ((splitComma tags).map pyStrip).filter (fun t => t ≠ "")
  (wrap_86 comment 65 6).filter (fun l => l ≠ "")
    ++ (if nonEmptyTags = [] then [] else [joinSep "; " nonEmptyTags])

/-- A concrete data row with the columns at the spec's positions:
account at 1, value date at 3, comment at 4, tags at 5, currency at 7,
the amount columns at 10/11, booking date at 12. -/
def rowExample : List String :=
  ["", "12345", "", "24.05.2024", "Payment ABC", "food,rent", "", "CHF",
    "", "", "100.00", "", "24.05.2024"]

/-- A concrete data row whose value date has distinct day and year
("31.12.2024"), separating the DDMMYY and YYMMDD renderings. -/
def rowDec : List String :=
  ["", "12345", "", "31.12.2024", "Payment ABC", "", "", "CHF",
    "", "", "100.00", "", "31.12.2024"]

/-- A three-row input: two header rows, then `rowDec`. -/
def rowsDec : List (List String) := [[], [], rowDec]

/-- A three-row input: two header rows, then `rowExample`. -/
def rowsExample : List (List String) := [[], [], rowExample]

/-- The loop state after the two header rows. -/
def stAtLine2 : St := ⟨2, 0, [], "", "", "", none⟩

/-- A concrete accumulated statement with two bodies. -/
def stSer : St := ⟨5, 2, ["A", "B"], "HDR", "011224", "311224", some "CHF"⟩

/- ------------------------------------------------------------------
   Helper lemmas
   ------------------------------------------------------------------ -/

lemma str_data_append (s t : String) : (s ++ t).data = s.data ++ t.data := by
  cases s; cases t; rfl

lemma str_mk_length (l : List Char) : (String.mk l).length = l.length := rfl

deriving instance DecidableEq for Except

lemma str_eq_empty_iff (s : String) : s = "" ↔ s.data = [] := by
  cases s with
  | mk d =>
    constructor
    · intro h
      exact congrArg String.data h
    · intro h
      have h2 : d = [] := h
      subst h2
      rfl

lemma joinSep_cons_ne (sep a : String) (r : List String) (ha : a ≠ "") :
    joinSep sep (a :: r) ≠ "" := by
  cases r with
  | nil => exact ha
  | cons b bs =>
    intro h
    rw [str_eq_empty_iff] at h
    simp only [joinSep, str_data_append, List.append_eq_nil] at h
    exact ha ((str_eq_empty_iff a).mpr h.1.1)

lemma chunksFuel_mem_length (w : Nat) :
    ∀ (fuel : Nat) (l : List Char), ∀ c ∈ chunksFuel w fuel l, c.length ≤ w + 1 := by
  intro fuel
  induction fuel with
  | zero =>
    intro l c hc
    cases l with
    | nil => simp [chunksFuel] at hc
    | cons x xs => simp [chunksFuel] at hc
  | succ n ih =>
    intro l c hc
    cases l with
    | nil => simp [chunksFuel] at hc
    | cons x xs =>
      simp only [chunksFuel, List.mem_cons] at hc
      rcases hc with rfl | hc
      · simp only [List.length_cons, List.length_take]
        omega
      · exact ih _ _ hc

lemma wrap_86_length_le (text : String) (width max_lines : Nat) :
    (wrap_86 text width max_lines).length ≤ max_lines := by
  simp only [wrap_86]
  rw [List.length_take]
  exact min_le_left _ _

lemma wrap_86_mem_le (text : String) (width max_lines : Nat) (hw : 0 < width) :
    ∀ l ∈ wrap_86 text width max_lines, l.length ≤ width := by
  intro l hl
  simp only [wrap_86] at hl
  have hl2 := List.take_subset _ _ hl
  split at hl2
  · simp only [List.mem_singleton] at hl2
    subst hl2
    simp [String.length]
  · obtain ⟨c, hc, rfl⟩ := List.mem_map.mp hl2
    have := chunksFuel_mem_length (width - 1) _ _ c hc
    rw [str_mk_length]
    omega

/- ------------------------------------------------------------------
   C1: amount-column / direction rule
   ------------------------------------------------------------------ -/

/-- C1: for every processed row, when the stripped primary amount
column is non-empty the amount is that value with direction "D"
(Debit); otherwise, when the stripped alternate column is non-empty,
the amount is that value with direction "C" (Credit); when both are
empty the row fails with the missing-amount error carrying the row
number and the joined raw row; and the chosen text is normalized only
by replacing every '.' with ',', so the spec's example amount "100.00"
yields "100,00" with direction "D". -/
theorem c1_amount_rule :
    (∀ (n : Nat) (j a b : String),
      resolveAmount n j a b =
        if pyStrip a ≠ "" then .ok (pyReplaceDot a, "D")
        else if pyStrip b ≠ "" then .ok (pyReplaceDot b, "C")
        else .error (.missingAmount n j))
    ∧ resolveAmount 3 ";12345;;24.05.2024" "100.00" "" = .ok ("100,00", "D") := by
  constructor
  · intro n j a b
    by_cases ha : pyStrip a = "" <;> by_cases hb : pyStrip b = "" <;>
      simp [resolveAmount, ha, hb]
  · rfl

/- ------------------------------------------------------------------
   C5: date parsing
   ------------------------------------------------------------------ -/

lemma drop_take_one (l : List Char) (n : Nat) :
    (l.drop n).take 1 = (l[n]?).toList := by
  induction n generalizing l with
  | zero =>
    cases l with
    | nil => rfl
    | cons c cs => simp
  | succ m ih =>
    cases l with
    | nil => rfl
    | cons c cs => simpa using ih cs

lemma pySlice_one_eq_dot (d : String) (n : Nat) :
    pySlice d n (n + 1) = "." ↔ d.data[n]? = some '.' := by
  have h1 : pySlice d n (n + 1) = String.mk ((d.data[n]?).toList) := by
    simp [pySlice, drop_take_one]
  rw [h1]
  cases h : d.data[n]? with
  | none => simp [str_eq_empty_iff]
  | some c =>
    constructor
    · intro hc
      have : Option.toList (some c) = ['.'] := by
        have := congrArg String.data hc
        simpa using this
      simp at this
      rw [this]
    · intro hc
      cases hc
      rfl

/-- C5: date parsing succeeds exactly on strings of length at least 10
with '.' at positions 2 and 5, in which case it yields
`(yy, mm, dd) = (d[8:10], d[3:5], d[0:2])`; on every other string it
fails with the invalid-date error carrying the row number and the raw
value.  In particular "31.12.2024" parses to ("24", "12", "31") and
"31-12-2024" fails. -/
theorem c5_date_codec :
    (∀ (n : Nat) (d : String),
      date_parts n d =
        if 10 ≤ d.length ∧ d.data[2]? = some '.' ∧ d.data[5]? = some '.' then
          .ok (pySlice d 8 10, pySlice d 3 5, pySlice d 0 2)
        else .error (.invalidDate n d))
    ∧ date_parts 7 "31.12.2024" = .ok ("24", "12", "31")
    ∧ date_parts 7 "31-12-2024" = .error (.invalidDate 7 "31-12-2024") := by
  refine ⟨?_, by rfl, by rfl⟩
  intro n d
  have h2 := pySlice_one_eq_dot d 2
  have h5 := pySlice_one_eq_dot d 5
  simp only [date_parts, h2, h5]

/- ------------------------------------------------------------------
   C8: wrap bounds
   ------------------------------------------------------------------ -/

/-- C8: for every text, positive width and any line limit, `wrap_86`
(which collapses whitespace runs and trims before chunking) returns at
most `max_lines` chunks, none longer than `width` characters. -/
theorem c8_wrap (text : String) (width max_lines : Nat) (hw : 0 < width) :
    (wrap_86 text width max_lines).length ≤ max_lines ∧
      ∀ l ∈ wrap_86 text width max_lines, l.length ≤ width :=
  ⟨wrap_86_length_le text width max_lines, wrap_86_mem_le text width max_lines hw⟩

/-- Witness for C8 at a concrete input. -/
theorem c8_witness :
    0 < 65 ∧ ((wrap_86 "hello   wide  world" 65 6).length ≤ 6 ∧
      ∀ l ∈ wrap_86 "hello   wide  world" 65 6, l.length ≤ 65) :=
  ⟨by decide, c8_wrap "hello   wide  world" 65 6 (by decide)⟩

/- ------------------------------------------------------------------
   C7: profile-mode ("starmoney") :86: block
   ------------------------------------------------------------------ -/

/-- C7: in profile mode the `:86:` block is the wrapped first segment
`EREF+eref` — extended by ` PURP+purp` exactly when a purpose code is
configured — followed by the wrap of `SVWZ+comment` (the literal
`SVWZ+` when the comment is empty, which is the same string) limited to
6 minus the lines the first segment consumed, so the two segments
together never exceed 6 lines. -/
theorem c7_starmoney_block (eref purp svwz : String) :
    starmoney86 eref purp svwz =
      wrap_86 ("EREF+" ++ eref ++ (if purp ≠ "" then " PURP+" ++ purp else "")) 65 6
        ++ wrap_86 ("SVWZ+" ++ svwz) 65
          (6 - (wrap_86 ("EREF+" ++ eref
            ++ (if purp ≠ "" then " PURP+" ++ purp else "")) 65 6).length) ∧
    (starmoney86 eref purp svwz).length ≤ 6 := by
  constructor
  · by_cases hs : svwz = ""
    · subst hs
      simp [starmoney86, String.append_empty]
    · simp [starmoney86, hs]
  · have h1 := wrap_86_length_le
      ("EREF+" ++ eref ++ (if purp ≠ "" then " PURP+" ++ purp else "")) 65 6
    have h2 := wrap_86_length_le (if svwz ≠ "" then "SVWZ+" ++ svwz else "SVWZ+") 65
      (6 - (wrap_86 ("EREF+" ++ eref
        ++ (if purp ≠ "" then " PURP+" ++ purp else "")) 65 6).length)
    simp only [starmoney86, List.length_append]
    omega

/- ------------------------------------------------------------------
   C6: plain-mode :86: block
   ------------------------------------------------------------------ -/

lemma mem_filter_ne (l : List String) : ∀ a ∈ l.filter (fun t => t ≠ ""), a ≠ "" := by
  intro a ha
  have := List.of_mem_filter ha
  simpa using this

lemma if_join_ne (L : List String) (h : ∀ a ∈ L, a ≠ "") :
    (if (if L = [] then "" else joinSep "; " L) = "" then ([] : List String)
      else [if L = [] then "" else joinSep "; " L])
    = (if L = [] then [] else [joinSep "; " L]) := by
  cases L with
  | nil => simp
  | cons a r =>
    have := joinSep_cons_ne "; " a r (h a (List.mem_cons_self a r))
    simp [this]

lemma singleton_if_le (s : String) :
    (if s = "" then ([] : List String) else [s]).length ≤ 1 := by
  split <;> simp

set_option maxRecDepth 100000 in
/-- C6, counterexample to "the total number of lines in the block never
exceeds 6 combined": a comment that wraps to six full 65-character
lines together with one non-empty tag produces a 7-line `:86:` block. -/
theorem c6_counterexample :
    (plain86 (String.mk (List.replicate 390 'a')) "x").length = 7 := by decide

/-- C6 (amended): the plain-mode block is the non-empty lines of
`wrap(comment)` followed by — when at least one non-empty trimmed tag
exists — exactly one additional trailing line of the tags joined with
"; "; its total length is at most 7 (at most 6 wrapped-comment lines
plus at most one tag line), not 6 as claimed. -/
theorem c6_plain_block (comment tags : String) :
    plain86 comment tags = plainNarrativeSpec comment tags ∧
    (plain86 comment tags).length ≤ 7 := by
  constructor
  · by_cases ht : tags = ""
    · subst ht
      have hsc : ((splitComma "").map pyStrip).filter (fun t => t ≠ "") = [] := by rfl
      simp [plain86, plainNarrativeSpec, hsc]
      decide
    · simp only [plain86, plainNarrativeSpec, if_neg ht]
      rw [if_join_ne _ (mem_filter_ne _)]
  · have h1 : ((wrap_86 comment 65 6).filter (fun l => l ≠ "")).length ≤ 6 :=
      le_trans (List.length_filter_le _ _) (wrap_86_length_le comment 65 6)
    simp only [plain86, List.length_append]
    refine le_trans (Nat.add_le_add h1 (singleton_if_le _)) (by omega)

/- ------------------------------------------------------------------
   C10: skipped rows leave the statement unchanged
   ------------------------------------------------------------------ -/

/-- C10: for every skipped row — one of the first two rows overall, a
fully blank row, or a row whose delimiter-joined text begins with four
delimiters followed by "Total" — `step` appends no body and leaves the
count, header, opening date, closing date and currency unchanged (only
the line counter advances). -/
theorem c10_skip_frame (cfg : Config) (st : St) (row : List String)
    (h : st.lineNumber + 1 < 3 ∨ row.all (fun c => pyStrip c == "") = true ∨
      listStarts (strRep cfg.delimiter 4 ++ "Total").data
        (pyStrip (joinSep cfg.delimiter row)).data = true) :
    step cfg st row = .ok (skipSt st) ∧
    (skipSt st).tx_count = st.tx_count ∧ (skipSt st).bodies = st.bodies ∧
    (skipSt st).header = st.header ∧ (skipSt st).opening_date = st.opening_date ∧
    (skipSt st).closing_date = st.closing_date ∧ (skipSt st).curr = st.curr := by
  refine ⟨?_, rfl, rfl, rfl, rfl, rfl, rfl⟩
  by_cases h1 : st.lineNumber + 1 < 3
  · unfold step
    rw [if_pos h1]
  · by_cases h2 : row.all (fun c => pyStrip c == "") = true
    · unfold step
      rw [if_neg h1, if_pos h2]
    · by_cases h3 : listStarts (strRep cfg.delimiter 4 ++ "Total").data
        (pyStrip (joinSep cfg.delimiter row)).data = true
      · unfold step
        rw [if_neg h1, if_neg h2, if_pos h3]
      · rcases h with h | h | h <;> contradiction

/-- Witness for C10: the first row of a file is skipped without any
state change beyond the line counter. -/
theorem c10_witness :
    step cfgDefault initSt ["x"] = .ok (skipSt initSt) ∧
    (skipSt initSt).tx_count = initSt.tx_count ∧
    (skipSt initSt).bodies = initSt.bodies ∧
    (skipSt initSt).header = initSt.header ∧
    (skipSt initSt).opening_date = initSt.opening_date ∧
    (skipSt initSt).closing_date = initSt.closing_date ∧
    (skipSt initSt).curr = initSt.curr :=
  c10_skip_frame cfgDefault initSt ["x"] (Or.inl (by decide))

/- ------------------------------------------------------------------
   C2: the :61: line of an accepted row
   ------------------------------------------------------------------ -/

/-- C2: for an accepted row (not skipped, enough columns, both dates
parsed, amount resolved), the new body starts with the `:61:` line
":61:" + value date as YYMMDD + booking month and day as MMDD + the
direction code + the normalized amount + the transaction-type code —
the configured code upper-cased when the narrative profile "starmoney"
(the spec's profile mode) is active, the fixed legacy code "FCHG"
otherwise — + "NONREF//NONREF", terminated by CRLF. -/
theorem c2_line61 (cfg : Config) (st : St) (row : List String)
    (yy_b mm_b dd_b yy_v mm_v dd_v val dc : String)
    (h1 : ¬ st.lineNumber + 1 < 3)
    (h2 : ¬ row.all (fun c => pyStrip c == "") = true)
    (h3 : ¬ listStarts (strRep cfg.delimiter 4 ++ "Total").data
      (pyStrip (joinSep cfg.delimiter row)).data = true)
    (h4 : ¬ row.length ≤ 12)
    (hb : date_parts (st.lineNumber + 1) (pyStrip (row.getD 12 ""))
      = .ok (yy_b, mm_b, dd_b))
    (hv : date_parts (st.lineNumber + 1) (pyStrip (row.getD 3 ""))
      = .ok (yy_v, mm_v, dd_v))
    (ha : resolveAmount (st.lineNumber + 1) (pyStrip (joinSep cfg.delimiter row))
      (pyStrip (row.getD 10 "")) (pyStrip (row.getD 11 "")) = .ok (val, dc)) :
    ∃ st' rest, step cfg st row = .ok st' ∧
      st'.bodies = st.bodies ++
        [":61:" ++ yy_v ++ mm_v ++ dd_v ++ mm_b ++ dd_b ++ dc ++ val
          ++ (if cfg.profile = some "starmoney" then pyUpper (pyStrip cfg.ttype) else "FCHG")
          ++ "NONREF//NONREF" ++ "\r\n" ++ rest] := by
  refine ⟨acceptSt cfg st row yy_b mm_b dd_b yy_v mm_v dd_v val dc,
    (if cfg.profile = some "starmoney" then
        ":86:" ++ joinSep "\r\n"
            (starmoney86 (if cfg.eref = "" then "NONREF" else cfg.eref)
              (pyStrip cfg.purp) (pyStrip (row.getD 4 ""))) ++ "\r\n"
      else
        ":86:" ++ joinSep "\r\n"
            (plain86 (pyStrip (row.getD 4 "")) (pyStrip (row.getD 5 ""))) ++ "\r\n"),
    ?_, rfl⟩
  unfold step
  rw [if_neg h1, if_neg h2, if_neg h3, if_neg h4, hb, hv, ha]

/-- Witness for C2 at the spec's example row (amount in column 10,
default configuration, hence no active profile and code "FCHG"). -/
theorem c2_witness :
    ∃ st' rest, step cfgDefault stAtLine2 rowExample = .ok st' ∧
      st'.bodies = stAtLine2.bodies ++
        [":61:" ++ "24" ++ "05" ++ "24" ++ "05" ++ "24" ++ "D" ++ "100,00"
          ++ (if cfgDefault.profile = some "starmoney"
              then pyUpper (pyStrip cfgDefault.ttype) else "FCHG")
          ++ "NONREF//NONREF" ++ "\r\n" ++ rest] :=
  c2_line61 cfgDefault stAtLine2 rowExample "24" "05" "24" "24" "05" "24" "100,00" "D"
    (by decide) (by decide) (by decide) (by decide) (by rfl) (by rfl) (by rfl)

/- ------------------------------------------------------------------
   C3: serialization layout and ordering
   ------------------------------------------------------------------ -/

lemma range_map_getD (l : List String) :
    (List.range l.length).map (fun i => l.getD i "") = l := by
  induction l with
  | nil => rfl
  | cons a t ih =>
    rw [List.length_cons, List.range_succ_eq_map]
    simp only [List.map_cons, List.map_map, Function.comp_def,
      List.getD_cons_zero, List.getD_cons_succ]
    rw [ih]

lemma range_rev_map_getD (l : List String) :
    (List.range l.length).reverse.map (fun i => l.getD i "") = l.reverse := by
  rw [List.map_reverse, range_map_getD]

/-- C3: the serialized output is, in this exact order: the byte-order
mark, the header, an opening-balance tag ":60F:C"+openingDate+currency+
"0,0" unless balances are suppressed, every accumulated body in
reverse accumulation order (so the first accepted body appears last),
a closing-balance tag ":62F:C"+closingDate+currency+"0,0" unless
suppressed, and a final blank line.  `tx_count = bodies.length` is the
loop's invariant (both start at 0 and move together). -/
theorem c3_serialize_layout (cfg : Config) (st : St) (c : String)
    (hn : st.tx_count = st.bodies.length) (hc : st.curr = some c) :
    serialize cfg st = .ok ("\uFEFF" ++ st.header
      ++ (if cfg.suppress_balances then ""
          else ":60F:C" ++ st.opening_date ++ c ++ "0,0" ++ "\r\n")
      ++ concatAll st.bodies.reverse
      ++ (if cfg.suppress_balances then ""
          else ":62F:C" ++ st.closing_date ++ c ++ "0,0" ++ "\r\n")
      ++ "\r\n") := by
  have hb : concatAll ((List.range st.tx_count).reverse.map (fun i => st.bodies.getD i ""))
      = concatAll st.bodies.reverse := by rw [hn, range_rev_map_getD]
  by_cases hs : cfg.suppress_balances = true
  · simp only [serialize, hb, hs, if_true, hc]
    rw [String.append_empty, String.append_empty]
  · simp only [serialize, hb, hc, hs, if_false]
    simp [hs]

/-- Witness for C3 at a concrete two-body statement. -/
theorem c3_witness :
    serialize cfgDefault stSer = .ok ("\uFEFF" ++ stSer.header
      ++ (if cfgDefault.suppress_balances then ""
          else ":60F:C" ++ stSer.opening_date ++ "CHF" ++ "0,0" ++ "\r\n")
      ++ concatAll stSer.bodies.reverse
      ++ (if cfgDefault.suppress_balances then ""
          else ":62F:C" ++ stSer.closing_date ++ "CHF" ++ "0,0" ++ "\r\n")
      ++ "\r\n") :=
  c3_serialize_layout cfgDefault stSer "CHF" (by rfl) (by rfl)

/- ------------------------------------------------------------------
   Loop analysis shared by C4 and C9
   ------------------------------------------------------------------ -/

lemma str_length_append (s t : String) : (s ++ t).length = s.length + t.length := by
  cases s with
  | mk a =>
    cases t with
    | mk b => exact List.length_append a b

lemma step_ok_cases (cfg : Config) (st : St) (row : List String) (st' : St)
    (h : step cfg st row = .ok st') :
    st' = skipSt st ∨
    ∃ yy_b mm_b dd_b yy_v mm_v dd_v val dc,
      date_parts (st.lineNumber + 1) (pyStrip (row.getD 3 "")) = .ok (yy_v, mm_v, dd_v) ∧
      st' = acceptSt cfg st row yy_b mm_b dd_b yy_v mm_v dd_v val dc := by
  unfold step at h
  split at h
  · exact Or.inl (Except.ok.inj h).symm
  · split at h
    · exact Or.inl (Except.ok.inj h).symm
    · split at h
      · exact Or.inl (Except.ok.inj h).symm
      · split at h
        · exact Except.noConfusion h
        · split at h
          · exact Except.noConfusion h
          · split at h
            · exact Except.noConfusion h
            · rename_i hvaluta
              split at h
              · exact Except.noConfusion h
              · exact Or.inr ⟨_, _, _, _, _, _, _, _, hvaluta, (Except.ok.inj h).symm⟩

lemma date_parts_ok_line (n m : Nat) (d : String) (v : String × String × String)
    (h : date_parts n d = .ok v) : date_parts m d = .ok v := by
  unfold date_parts at h ⊢
  split at h
  · rename_i hcond
    rw [if_pos hcond]
    exact h
  · exact Except.noConfusion h

lemma date_parts_lengths (n : Nat) (d : String) (yy mm dd : String)
    (h : date_parts n d = .ok (yy, mm, dd)) :
    yy.length = 2 ∧ mm.length = 2 ∧ dd.length = 2 := by
  unfold date_parts at h
  split at h
  · rename_i hcond
    have h10 : 10 ≤ d.data.length := hcond.1
    have h' := Except.ok.inj h
    rw [Prod.mk.injEq, Prod.mk.injEq] at h'
    obtain ⟨hy, hm, hd⟩ := h'
    subst hy hm hd
    refine ⟨?_, ?_, ?_⟩ <;>
      · simp only [pySlice, str_mk_length, List.length_take, List.length_drop]
        omega
  · exact Except.noConfusion h

lemma mkHeader_ne (now account : String) : mkHeader now account ≠ "" := by
  intro h
  have h1 := congrArg String.length h
  simp only [mkHeader, str_length_append] at h1
  have h20 : (":20:DateOfConversion" : String).length = 20 := rfl
  have h0 : ("" : String).length = 0 := rfl
  omega

lemma getLastD_cons_of_ne {α : Type} (a d : α) (l : List α) (h : l ≠ []) :
    (a :: l).getLastD d = l.getLastD d := by
  cases l with
  | nil => exact absurd rfl h
  | cons b bs => rfl

lemma loop_dates (cfg : Config) :
    ∀ (rows : List (List String)) (st stF : St),
      loop cfg st rows = .ok stF →
      (acceptedRows cfg st rows = [] →
        stF.opening_date = st.opening_date ∧ stF.closing_date = st.closing_date ∧
          stF.header = st.header) ∧
      (acceptedRows cfg st rows ≠ [] →
        (stF.opening_date = valutaDDMMYY ((acceptedRows cfg st rows).getLastD [])
            ∧ stF.opening_date.length = 6)
          ∧ stF.header ≠ ""
          ∧ (if st.header = "" then
              stF.closing_date = valutaDDMMYY ((acceptedRows cfg st rows).headD [])
                ∧ stF.closing_date.length = 6
            else stF.closing_date = st.closing_date)) := by
  intro rows
  induction rows with
  | nil =>
    intro st stF h
    simp only [loop] at h
    obtain rfl := Except.ok.inj h
    exact ⟨fun _ => ⟨rfl, rfl, rfl⟩, fun hne => absurd rfl hne⟩
  | cons row rest ih =>
    intro st stF h
    simp only [loop] at h
    cases hstep : step cfg st row with
    | error e =>
      rw [hstep] at h
      replace h : (Except.error e : Except RowError St) = .ok stF := h
      exact Except.noConfusion h
    | ok st1 =>
      rw [hstep] at h
      replace h : (if cfg.limit ≠ 0 ∧ cfg.limit ≤ st1.tx_count then Except.ok st1
          else loop cfg st1 rest) = .ok stF := h
      have hacc : acceptedRows cfg st (row :: rest) =
          (if st1.tx_count = st.tx_count + 1 then [row] else []) ++
          (if cfg.limit ≠ 0 ∧ cfg.limit ≤ st1.tx_count then []
            else acceptedRows cfg st1 rest) := by
        simp only [acceptedRows, hstep]
      rcases step_ok_cases cfg st row st1 hstep with
        hskip | ⟨yyb, mmb, ddb, yyv, mmv, ddv, val, dc, hv, haccept⟩
      · -- skipped row: only the line counter changes
        subst hskip
        have hne : ¬ (skipSt st).tx_count = st.tx_count + 1 := by
          simp [skipSt]
        rw [if_neg hne, List.nil_append] at hacc
        by_cases hlim : cfg.limit ≠ 0 ∧ cfg.limit ≤ (skipSt st).tx_count
        · rw [if_pos hlim] at h hacc
          obtain rfl := Except.ok.inj h
          exact ⟨fun _ => ⟨rfl, rfl, rfl⟩, fun hne2 => absurd hacc hne2⟩
        · rw [if_neg hlim] at h hacc
          have IH := ih (skipSt st) stF h
          rw [hacc]
          refine ⟨fun he => ?_, fun hne2 => ?_⟩
          · exact IH.1 he
          · have H2 := IH.2 hne2
            exact H2
      · -- accepted row
        subst haccept
        have htx : (acceptSt cfg st row yyb mmb ddb yyv mmv ddv val dc).tx_count
            = st.tx_count + 1 := rfl
        rw [if_pos htx, List.singleton_append] at hacc
        have hvv : valutaDDMMYY row = ddv ++ mmv ++ yyv := by
          unfold valutaDDMMYY
          rw [date_parts_ok_line _ 0 _ _ hv]
        have hlen : (ddv ++ mmv ++ yyv).length = 6 := by
          obtain ⟨l1, l2, l3⟩ := date_parts_lengths _ _ _ _ _ hv
          simp [str_length_append, l1, l2, l3]
        have hheadne : (acceptSt cfg st row yyb mmb ddb yyv mmv ddv val dc).header ≠ "" := by
          by_cases hh : st.header = ""
          · show (if st.header = "" then mkHeader cfg.now (pyStrip (row.getD 1 ""))
              else st.header) ≠ ""
            rw [if_pos hh]
            exact mkHeader_ne _ _
          · show (if st.header = "" then mkHeader cfg.now (pyStrip (row.getD 1 ""))
              else st.header) ≠ ""
            rw [if_neg hh]
            exact hh
        by_cases hlim : cfg.limit ≠ 0 ∧
            cfg.limit ≤ (acceptSt cfg st row yyb mmb ddb yyv mmv ddv val dc).tx_count
        · rw [if_pos hlim] at h
          rw [if_pos hlim] at hacc
          obtain rfl := Except.ok.inj h
          refine ⟨fun he => ?_, fun _ => ?_⟩
          · rw [hacc] at he
            exact List.noConfusion he
          · rw [hacc]
            refine ⟨⟨?_, ?_⟩, hheadne, ?_⟩
            · exact hvv.symm
            · show (ddv ++ mmv ++ yyv).length = 6
              exact hlen
            · by_cases hh : st.header = ""
              · rw [if_pos hh]
                constructor
                · show (if st.header = "" then ddv ++ mmv ++ yyv else st.closing_date)
                    = valutaDDMMYY ([row].headD [])
                  rw [if_pos hh]
                  exact hvv.symm
                · show (if st.header = "" then ddv ++ mmv ++ yyv else st.closing_date).length = 6
                  rw [if_pos hh]
                  exact hlen
              · rw [if_neg hh]
                show (if st.header = "" then ddv ++ mmv ++ yyv else st.closing_date)
                  = st.closing_date
                rw [if_neg hh]
        · rw [if_neg hlim] at h
          rw [if_neg hlim] at hacc
          have IH := ih _ stF h
          by_cases hrest : acceptedRows cfg
              (acceptSt cfg st row yyb mmb ddb yyv mmv ddv val dc) rest = []
          · obtain ⟨ho, hcl, hhd⟩ := IH.1 hrest
            rw [hrest] at hacc
            refine ⟨fun he => ?_, fun _ => ?_⟩
            · rw [hacc] at he
              exact List.noConfusion he
            · rw [hacc]
              refine ⟨⟨?_, ?_⟩, ?_, ?_⟩
              · rw [ho]
                exact hvv.symm
              · rw [ho]
                show (ddv ++ mmv ++ yyv).length = 6
                exact hlen
              · rw [hhd]
                exact hheadne
              · by_cases hh : st.header = ""
                · rw [if_pos hh]
                  constructor
                  · rw [hcl]
                    show (if st.header = "" then ddv ++ mmv ++ yyv else st.closing_date)
                      = valutaDDMMYY ((row :: ([] : List (List String))).headD [])
                    rw [if_pos hh]
                    exact hvv.symm
                  · rw [hcl]
                    show (if st.header = "" then ddv ++ mmv ++ yyv else st.closing_date).length = 6
                    rw [if_pos hh]
                    exact hlen
                · rw [if_neg hh]
                  rw [hcl]
                  show (if st.header = "" then ddv ++ mmv ++ yyv else st.closing_date)
                    = st.closing_date
                  rw [if_neg hh]
          · obtain ⟨⟨ho, holen⟩, hhne2, hcl⟩ := IH.2 hrest
            refine ⟨fun he => ?_, fun _ => ?_⟩
            · rw [hacc] at he
              exact List.noConfusion he
            · rw [hacc]
              refine ⟨⟨?_, holen⟩, hhne2, ?_⟩
              · rw [ho, getLastD_cons_of_ne _ _ _ hrest]
              · have hcl2 : stF.closing_date =
                    (acceptSt cfg st row yyb mmb ddb yyv mmv ddv val dc).closing_date := by
                  rw [if_neg hheadne] at hcl
                  exact hcl
                by_cases hh : st.header = ""
                · rw [if_pos hh]
                  constructor
                  · rw [hcl2]
                    show (if st.header = "" then ddv ++ mmv ++ yyv else st.closing_date)
                      = valutaDDMMYY ((row :: acceptedRows cfg
                          (acceptSt cfg st row yyb mmb ddb yyv mmv ddv val dc) rest).headD [])
                    rw [if_pos hh]
                    exact hvv.symm
                  · rw [hcl2]
                    show (if st.header = "" then ddv ++ mmv ++ yyv else st.closing_date).length = 6
                    rw [if_pos hh]
                    exact hlen
                · rw [if_neg hh]
                  rw [hcl2]
                  show (if st.header = "" then ddv ++ mmv ++ yyv else st.closing_date)
                    = st.closing_date
                  rw [if_neg hh]

/- ------------------------------------------------------------------
   C4: opening/closing balance dates
   ------------------------------------------------------------------ -/

set_option maxRecDepth 100000 in
/-- C4, counterexample to "each is stored ... as the 6-character YYMMDD
rendering": after accepting one row with value date "31.12.2024", the
stored opening date is "311224" (DDMMYY), not the YYMMDD rendering
"241231". -/
theorem c4_counterexample :
    (loop cfgDefault initSt rowsDec).map St.opening_date = .ok "311224" ∧
    (loop cfgDefault initSt rowsDec).map St.opening_date ≠ .ok "241231" := by
  constructor
  · rfl
  · decide

/-- C4 (amended): after a run that accepts at least one row, the
statement's opening date is the value date of the last accepted row and
its closing date the value date of the first accepted row, each stored
(and emitted in the balance tags, see C3) as the 6-character DDMMYY
rendering day ++ month ++ two-digit year — not YYMMDD as claimed. -/
theorem c4_balance_dates (cfg : Config) (rows : List (List String)) (stF : St)
    (h : loop cfg initSt rows = .ok stF)
    (hne : acceptedRows cfg initSt rows ≠ []) :
    stF.opening_date = valutaDDMMYY ((acceptedRows cfg initSt rows).getLastD []) ∧
    stF.closing_date = valutaDDMMYY ((acceptedRows cfg initSt rows).headD []) ∧
    stF.opening_date.length = 6 ∧ stF.closing_date.length = 6 := by
  obtain ⟨⟨ho, hol⟩, -, hcl⟩ := (loop_dates cfg rows initSt stF h).2 hne
  have hinit : initSt.header = "" := rfl
  rw [if_pos hinit] at hcl
  exact ⟨ho, hcl.1, hol, hcl.2⟩

set_option maxRecDepth 100000 in
/-- Witness for C4 on a concrete three-row input with one accepted
row. -/
theorem c4_witness :
    ∃ stF, loop cfgDefault initSt rowsExample = .ok stF ∧
      (stF.opening_date
          = valutaDDMMYY ((acceptedRows cfgDefault initSt rowsExample).getLastD []) ∧
        stF.closing_date
          = valutaDDMMYY ((acceptedRows cfgDefault initSt rowsExample).headD []) ∧
        stF.opening_date.length = 6 ∧ stF.closing_date.length = 6) := by
  obtain ⟨stF, hstF⟩ : ∃ stF, loop cfgDefault initSt rowsExample = .ok stF := ⟨_, rfl⟩
  exact ⟨stF, hstF, c4_balance_dates cfgDefault rowsExample stF hstF (by decide)⟩

/- ------------------------------------------------------------------
   C9: failure atomicity and serialization of the run
   ------------------------------------------------------------------ -/

lemma loop_curr (cfg : Config) :
    ∀ (rows : List (List String)) (st stF : St),
      loop cfg st rows = .ok stF →
      (1 ≤ st.tx_count → st.curr.isSome = true) →
      (1 ≤ stF.tx_count → stF.curr.isSome = true) := by
  intro rows
  induction rows with
  | nil =>
    intro st stF h hinv
    simp only [loop] at h
    obtain rfl := Except.ok.inj h
    exact hinv
  | cons row rest ih =>
    intro st stF h hinv
    simp only [loop] at h
    cases hstep : step cfg st row with
    | error e =>
      rw [hstep] at h
      replace h : (Except.error e : Except RowError St) = .ok stF := h
      exact Except.noConfusion h
    | ok st1 =>
      rw [hstep] at h
      replace h : (if cfg.limit ≠ 0 ∧ cfg.limit ≤ st1.tx_count then Except.ok st1
          else loop cfg st1 rest) = .ok stF := h
      have hinv1 : 1 ≤ st1.tx_count → st1.curr.isSome = true := by
        rcases step_ok_cases cfg st row st1 hstep with
          hskip | ⟨_, _, _, _, _, _, _, _, _, haccept⟩
        · subst hskip
          exact hinv
        · subst haccept
          intro _
          rfl
      by_cases hlim : cfg.limit ≠ 0 ∧ cfg.limit ≤ st1.tx_count
      · rw [if_pos hlim] at h
        obtain rfl := Except.ok.inj h
        exact hinv1
      · rw [if_neg hlim] at h
        exact ih st1 stF h hinv1

lemma serialize_ok (cfg : Config) (st : St)
    (h : cfg.suppress_balances = true ∨ st.curr.isSome = true) :
    ∃ out, serialize cfg st = .ok out := by
  simp only [serialize]
  by_cases hs : cfg.suppress_balances = true
  · rw [if_pos hs]
    exact ⟨_, rfl⟩
  · rw [if_neg hs]
    rcases h with h | h
    · exact absurd h hs
    · obtain ⟨c, hc⟩ := Option.isSome_iff_exists.mp h
      rw [hc]
      exact ⟨_, rfl⟩

/-- C9, counterexample to "... or — when no row fails — completes and
serializes the statement exactly once at the end of the run, including
when zero rows were accepted": on an empty row sequence (no row fails)
with the default configuration, the run aborts reading the unbound
loop-local `curr` (Python `NameError` at the `:60F:` write) instead of
serializing. -/
theorem c9_counterexample :
    runConversion cfgDefault [] = .error RowError.unboundCurrency := rfl

/-- C9 (amended): any row failure aborts the run with that first error
and no output; when no row fails the run serializes exactly once,
provided at least one row was accepted or balances are suppressed —
with zero accepted rows and balances enabled it instead aborts on the
unbound currency variable. -/
theorem c9_run_policy (cfg : Config) (rows : List (List String)) :
    (∀ e, loop cfg initSt rows = .error e → runConversion cfg rows = .error e) ∧
    (∀ stF, loop cfg initSt rows = .ok stF →
      1 ≤ stF.tx_count ∨ cfg.suppress_balances = true →
      ∃ out, runConversion cfg rows = .ok out) := by
  constructor
  · intro e he
    simp only [runConversion, he]
  · intro stF hok hcase
    have hser : ∃ out, serialize cfg stF = .ok out := by
      rcases hcase with htx | hs
      · have hsome := loop_curr cfg rows initSt stF hok
          (fun hx => absurd hx (by decide)) htx
        exact serialize_ok cfg stF (Or.inr hsome)
      · exact serialize_ok cfg stF (Or.inl hs)
    obtain ⟨out, hout⟩ := hser
    refine ⟨out, ?_⟩
    simp only [runConversion, hok]
    exact hout

set_option maxRecDepth 100000 in
/-- Witness for C9 on a concrete three-row input whose single data row
is accepted. -/
theorem c9_witness :
    ∃ out, runConversion cfgDefault rowsExample = .ok out := by
  obtain ⟨stF, hstF⟩ : ∃ stF, loop cfgDefault initSt rowsExample = .ok stF := ⟨_, rfl⟩
  refine (c9_run_policy cfgDefault rowsExample).2 stF hstF (Or.inl ?_)
  rw [show stF = (loop cfgDefault initSt rowsExample).toOption.getD initSt from by
    rw [hstF]; rfl]
  decide

end Csv2Mt940
